import Mathlib

/-!
Verification development for the MechClock repository: a shallow embedding of
the ULN2003Pico stepper-channel scheduler (src/lib/ULN2003Pico/ULN2003Pico.cpp)
and the MoonDisplay phase controller (src/lib/MoonDisplay/MoonDisplay.cpp),
together with theorems settling the specification claims about them.

Modelling conventions:
  * C++ `long` / `int32_t` values are modelled as `Int`; explicit two's
    complement wrapping at 2^32 is applied exactly where the source mixes
    signed and unsigned operands (`ULN2003::setModulus`, the size_t
    comparison in `MoonDisplay::showPhase`).
  * C++ `%` and `/` on signed operands truncate toward zero and are modelled
    by `Int.tmod` / `Int.tdiv`.
  * Operations whose C++ evaluation is undefined (remainder with a zero
    divisor) or reads out of bounds of a fixed array return `Except.error`.
  * Real-time aspects (the 512 us repeating timer, per-channel microsecond
    deadlines, motor speeds) are abstracted: the timer callback body for one
    channel is modelled by `tick`, with the due-time comparison abstracted
    into a `due : Bool` argument; GPIO writes are modelled by the 4-bit
    `outputs` field; the Illuminator collaborator is external to the spec
    and is not modelled.
  * The float expressions `(int32_t)(20.48 * angle)` and the `pvToLs`
    quadratic are evaluated exactly over scaled integers; at every input that
    actually reaches them (the 60 tabled pivot angles) the double rounding
    error is far below the distance to the nearest integer, so the truncated
    results agree with the float evaluation.
-/

/-- Failure modes of the embedded C++ code: an out-of-bounds read of a fixed
array, or the undefined remainder-by-zero evaluation. -/
inductive Err where
  | oobRead
  | divByZero
deriving DecidableEq, Repr

/-- Reinterpret an `Int` as a C++ 32-bit unsigned value (conversion of a
`long` operand to `unsigned long`). -/
def toU32 (x : Int) : Nat := (x.emod 4294967296).toNat

/-- Reinterpret a 32-bit unsigned value as a C++ signed `long`
(two's complement). -/
def ofU32 (n : Nat) : Int :=
  if n % 4294967296 < 2147483648 then ((n % 4294967296 : Nat) : Int)
  else ((n % 4294967296 : Nat) : Int) - 4294967296

namespace ULN2003

/-- Outputs by step phase (ULN2003Pico.cpp line 44):
`{0b0001, 0b1001, 0b1000, 0b1100, 0b0100, 0b0110, 0b0010, 0b0011}`. -/
def phState : List Nat := [1, 9, 8, 12, 4, 6, 2, 3]

/-- State of one stepper channel: the per-object slices of the file-scope
arrays `location`, `stepsToGo`, `modulus`, `phase` of ULN2003Pico.cpp, plus
`outputs`, the 4-bit pattern currently driven on the four coil pins
(0 means all four windings off).  The timing fields (`curSpeed`, `usPerStep`,
`microsNextStep`) and the pin assignment are not represented; see the
real-time abstraction note in the file header. -/
structure Chan where
  location : Int
  stepsToGo : Int
  modulus : Int
  phase : Nat
  outputs : Nat
deriving DecidableEq, Repr

/-- `ULN2003::begin` (lines 111-149): location 0, modulus `UL_STEPS_PER_REV`
(4096), no pending steps, winding phase 0, all four pins driven LOW. -/
def begin : Chan :=
  { location := 0, stepsToGo := 0, modulus := 4096, phase := 0, outputs := 0 }

/-- Reduction of an absolute-move delta performed by `ULN2003::moveIt`
(lines 156-163): when the modulus is nonzero, `newStepsToGo %= modulus` and
then fold into at most half a turn.  C++ `%` and `/` truncate toward zero. -/
def reduceDelta (d m : Int) : Int :=
  if m ≠ 0 then
    let r := Int.tmod d m
    if r > Int.tdiv m 2 then r - m
    else if r < Int.tdiv m (-2) then r + m
    else r
  else d

/-- `ULN2003::moveIt` (lines 151-176).  An absolute move sets the pending
steps to the reduced delta to the destination; a relative move accumulates.
On a transition to not moving the four coil pins are driven LOW. -/
def moveIt (amt : Int) (abs : Bool) (c : Chan) : Chan :=
  let newStepsToGo :=
    if abs then reduceDelta (amt - c.location) c.modulus
    else c.stepsToGo + amt
  let outs := if c.stepsToGo ≠ 0 ∧ newStepsToGo = 0 then 0 else c.outputs
  { c with stepsToGo := newStepsToGo, outputs := outs }

/-- `ULN2003::drive` (lines 178-186). -/
def drive (nSteps : Int) (c : Chan) : Chan :=
  if nSteps = 0 then c else moveIt nSteps false c

/-- `ULN2003::driveTo` (lines 188-190). -/
def driveTo (loc : Int) (c : Chan) : Chan :=
  moveIt loc true c

/-- `ULN2003::stop` (lines 192-196): clamp the pending steps to -1, 0 or 1,
keeping the direction sign. -/
def stop (c : Chan) : Chan :=
  { c with stepsToGo := if c.stepsToGo > 0 then 1 else if c.stepsToGo < 0 then -1 else 0 }

/-- `ULN2003::setLocation` (lines 198-208): with a nonzero modulus the given
value is reduced by the signed C++ `%` and shifted into `[0, modulus)`. -/
def setLocation (steps : Int) (c : Chan) : Chan :=
  let s :=
    if c.modulus ≠ 0 then
      let s1 := Int.tmod steps c.modulus
      if s1 < 0 then s1 + c.modulus else s1
    else steps
  { c with location := s }

/-- `ULN2003::getLocation` (lines 210-216). -/
def getLocation (c : Chan) : Int := c.location

/-- `ULN2003::setModulus` (lines 218-226).  `steps` is an `unsigned long`;
the assignment `modulus[objIx] = steps` converts it to `long`, and
`location[objIx] %= steps` converts `location` to `unsigned long`, so both
conversions are modelled with 32-bit wrapping.  When `steps` is 0 the
remainder `location %= steps` has undefined behaviour. -/
def setModulus (steps : Nat) (c : Chan) : Except Err Chan :=
  let s := steps % 4294967296
  if s = 0 then .error .divByZero
  else
    let l1 := ofU32 (toU32 c.location % s)
    let l2 := if l1 < 0 then ofU32 (toU32 l1 + s) else l1
    .ok { c with modulus := ofU32 s, location := l2 }

/-- `ULN2003::isMoving` (lines 262-268). -/
def isMoving (c : Chan) : Bool := c.stepsToGo != 0

/-- `ULN2003::getStepsToGo` (lines 254-260). -/
def getStepsToGo (c : Chan) : Int := c.stepsToGo

/-- Body of `repeatingTimerCallback` (lines 69-93) for one channel when its
step is dispatched: advance the winding phase by +1 (counterclockwise) or
-1 i.e. +7 (clockwise) mod 8, write the half-step pattern for the new phase
(or all LOW if this was the last pending step), move `location` one step with
single-correction wraparound when the modulus is nonzero, and consume one
pending step. -/
def dispatchStep (c : Chan) : Chan :=
  let ph := (c.phase + (if c.stepsToGo < 0 then 1 else 7)) % 8
  let outs := if c.stepsToGo.natAbs = 1 then 0 else phState.getD ph 0
  let loc1 := c.location + (if c.stepsToGo > 0 then 1 else -1)
  let loc2 :=
    if c.modulus ≠ 0 then
      if loc1 < 0 then loc1 + c.modulus
      else if loc1 ≥ c.modulus then loc1 - c.modulus
      else loc1
    else loc1
  { c with phase := ph, outputs := outs, location := loc2,
           stepsToGo := c.stepsToGo - (if c.stepsToGo > 0 then 1 else -1) }

/-- One invocation of the timer callback for one channel.  `due` abstracts
the real-time test `microsNextStep[i] - UL_MAX_JITTER <= curMicros`; a step
is dispatched when steps are pending and the deadline has arrived. -/
def tick (due : Bool) (c : Chan) : Chan :=
  if c.stepsToGo ≠ 0 ∧ due then dispatchStep c else c

/-- `n` timer callbacks, each with the channel due. -/
def tickN : Nat → Chan → Chan
  | 0, c => c
  | n + 1, c => tickN n (tick true c)

/-- Run the channel until no steps are pending ("enough ticks"), in closed
form: the location advances by the pending steps, the outputs end LOW, and
the winding phase advances one table position per step.  For a channel with
modulus 0 this equals `tickN c.stepsToGo.natAbs c`
(theorem `settle_eq_tickN` below). -/
def settle (c : Chan) : Chan :=
  if c.stepsToGo = 0 then c
  else { c with location := c.location + c.stepsToGo, stepsToGo := 0, outputs := 0,
                phase := (c.phase + (if c.stepsToGo < 0 then 1 else 7) * c.stepsToGo.natAbs) % 8 }

end ULN2003

namespace MoonDisplay

/-- The `phasePva` pivot-angle table (MoonDisplay.cpp lines 31-38), stored as
twice the angle in degrees so that every entry is an integer
(e.g. -75.5 degrees is stored as -151). -/
def phasePva2 : List Int :=
  [-156, -156, -151, -147, -142, -134, -126, -116, -106, -94,
   -80, -66, -50, -36, -20, 20, 36, 50, 66, 80,
   94, 106, 116, 126, 134, 142, 147, 151, 156, 156,
   -156, -156, -151, -147, -142, -134, -126, -116, -106, -94,
   -80, -66, -50, -36, -20, 20, 36, 50, 66, 80,
   94, 106, 116, 126, 134, 142, 147, 151, 156, 156]

/-- Read `phasePva[i]`.  The C++ code performs this read with no bounds
check; an index outside `0..59` is an out-of-bounds read of the 60-entry
array, modelled as `Err.oobRead`. -/
def phasePvaRead (i : Int) : Except Err Int :=
  if 0 ≤ i ∧ i < 60 then .ok (phasePva2.getD i.toNat 0) else .error .oobRead

/-- `MoonDisplay::degToPv` (MoonDisplay.h lines 241-243):
`(int32_t)(20.48 * angle)`, taking twice the angle as argument, so
`20.48 * angle = 1024 * a2 / 100`, truncated toward zero. -/
def degToPv (a2 : Int) : Int := Int.tdiv (1024 * a2) 100

/-- `MoonDisplay::pvToLs` (MoonDisplay.h lines 226-228): the fitted quadratic
`497671.0 + 30.5 * |pv| - 0.201 * pv * pv`, truncated toward zero, evaluated
exactly over integers scaled by 1000. -/
def pvToLs (pv : Int) : Int :=
  if pv ≥ 0 then Int.tdiv (497671000 + 30500 * pv - 201 * pv * pv) 1000
  else Int.tdiv (497671000 - 30500 * pv - 201 * pv * pv) 1000

/-- Display controller state: the `MoonDisplay` instance fields (curPhase,
tgtPhase, resetting, underway, resetTgt) together with its two stepper
channels.  The Illuminator, the pin assignments and the unused
`nextPhaseChangeMillis` field are not modelled. -/
structure MD where
  pv : ULN2003.Chan
  ls : ULN2003.Chan
  curPhase : Int
  tgtPhase : Int
  resetting : Bool
  underway : Bool
  resetTgt : Int
deriving DecidableEq, Repr

/-- `MoonDisplay::begin` (MoonDisplay.cpp lines 50-68): read the pivot table
at `phase` (unchecked), initialize both channels, set their modulus to 0 and
their locations to the mapped positions, and park the state machine at
`phase`.  Note that `setModulus(0)` evaluates `location %= 0`, which is
undefined, so this function never completes cleanly in the model.
`setSpeed` touches only unmodelled timing state and is omitted. -/
def begin (phase : Int) (s : MD) : Except Err MD := do
  let a2 ← phasePvaRead phase
  let initPv := degToPv a2
  let initLs := pvToLs initPv
  let ls0 := ULN2003.begin
  let ls1 ← ULN2003.setModulus 0 ls0
  let ls2 := ULN2003.setLocation initLs ls1
  let pv0 := ULN2003.begin
  let pv1 ← ULN2003.setModulus 0 pv0
  let pv2 := ULN2003.setLocation initPv pv1
  .ok { s with pv := pv2, ls := ls2, curPhase := phase, tgtPhase := phase,
               underway := false, resetting := false }

/-- `MoonDisplay::run` (MoonDisplay.cpp lines 70-144).  Returns the updated
state and the `int16_t` result: the arrived phase when a move has just
completed, -1 otherwise.  The two reset maneuvers (the 59 to 0 and the
29 to 30 transitions) stash the target and retarget to the intermediate
boundary phase exactly as in the source.  Illuminator calls are omitted. -/
def run (s : MD) : Except Err (MD × Int) :=
  if s.ls.stepsToGo ≠ 0 ∨ s.pv.stepsToGo ≠ 0 then .ok (s, -1)
  else if s.curPhase ≠ s.tgtPhase then
    let c1 := s.curPhase + (if s.resetting then -1 else 1)
    let s1 : MD :=
      if ¬s.resetting ∧ c1 = 60 then
        { s with resetTgt := s.tgtPhase, tgtPhase := 30, curPhase := 58, resetting := true }
      else { s with curPhase := c1 }
    let s2 : MD :=
      if ¬s1.resetting ∧ s1.curPhase = 30 then
        { s1 with resetTgt := s1.tgtPhase, tgtPhase := 0, curPhase := 28, resetting := true }
      else s1
    do
      let a2 ← phasePvaRead s2.curPhase
      let pvTgt := degToPv a2
      let lsTgt := pvToLs pvTgt
      .ok ({ s2 with ls := ULN2003.driveTo lsTgt s2.ls, pv := ULN2003.driveTo pvTgt s2.pv,
                     underway := true }, -1)
  else
    let s1 : MD :=
      if s.resetting then
        if s.curPhase = 0 then { s with curPhase := 30, tgtPhase := s.resetTgt, resetting := false }
        else if s.curPhase = 30 then { s with curPhase := 0, tgtPhase := s.resetTgt, resetting := false }
        else s
      else s
    if s1.underway then .ok ({ s1 with underway := false }, s1.curPhase)
    else .ok (s1, -1)

/-- `MoonDisplay::showPhase` (MoonDisplay.cpp lines 146-161).  The busy test
comes first; the bounds test compares the `int16_t` phase against
`sizeof(phasePva)/sizeof(phasePva[0])`, a `size_t`, so the phase is
converted to unsigned for that comparison. -/
def showPhase (phase : Int) (s : MD) : Bool × MD :=
  if s.resetting ∨ s.pv.stepsToGo ≠ 0 ∨ s.ls.stepsToGo ≠ 0 then (false, s)
  else if toU32 phase > 60 ∨ phase < 0 then (false, s)
  else (true, { s with tgtPhase := phase })

/-- `MoonDisplay::getPhase` (MoonDisplay.cpp lines 163-165). -/
def getPhase (s : MD) : Int := s.curPhase

/-- `MoonDisplay::assume` (MoonDisplay.cpp lines 167-178): read the pivot
table at `phase` (unchecked), set both channel locations to the mapped
positions and both `curPhase` and `tgtPhase` to `phase`. -/
def assume (phase : Int) (s : MD) : Except Err MD := do
  let a2 ← phasePvaRead phase
  let pvLoc := degToPv a2
  let lsLoc := pvToLs pvLoc
  .ok { s with pv := ULN2003.setLocation pvLoc s.pv, ls := ULN2003.setLocation lsLoc s.ls,
               curPhase := phase, tgtPhase := phase }

/-- The idle controller state parked at phase `p`: both channels stopped
(modulus 0, as configured by `begin`) at the mapped positions for `p`, no
reset or move in progress.  This is the state the controller occupies
between completed moves. -/
def mkIdle (p : Int) : MD :=
  let pvLoc := degToPv (phasePva2.getD p.toNat 0)
  let lsLoc := pvToLs pvLoc
  { pv := { location := pvLoc, stepsToGo := 0, modulus := 0, phase := 0, outputs := 0 },
    ls := { location := lsLoc, stepsToGo := 0, modulus := 0, phase := 0, outputs := 0 },
    curPhase := p, tgtPhase := p, resetting := false, underway := false, resetTgt := 0 }

/-- Let both channels complete their commanded motion ("enough ticks between
`run()` calls for each commanded motion to complete"). -/
def settleBoth (s : MD) : MD :=
  { s with pv := ULN2003.settle s.pv, ls := ULN2003.settle s.ls }

/-- One polling iteration of the host loop: one `run()` call followed by
enough timer ticks for the commanded motion to complete.  An erroring run
(never reached from the states considered here) leaves the state unchanged. -/
def poll (s : MD) : MD :=
  match run s with
  | .ok (s', _) => settleBoth s'
  | .error _ => s

/-- Index of the first polling iteration (0 = before any `run()` call) at
which `getPhase()` reads `v`, searching `fuel` iterations. -/
def firstHit (v : Int) : Nat → MD → Option Nat
  | 0, _ => none
  | fuel + 1, s =>
    if s.curPhase = v then some 0
    else (firstHit v fuel (poll s)).map (· + 1)

/-- The `int16_t` value returned by one `run()` call (-2 marks the
unreachable erroring case). -/
def pollRet (s : MD) : Int :=
  match run s with
  | .ok (_, r) => r
  | .error _ => -2

/-- `n` polling iterations. -/
def pollN : Nat → MD → MD
  | 0, s => s
  | n + 1, s => pollN n (poll s)

/-- Control-state predicate used in the arrival proofs: the controller shows
`c`, aims at `t`, with the given `resetting` / `underway` flags and reset
stash, and both channels idle. -/
def Ctl (s : MD) (c t : Int) (res uw : Bool) (rt : Int) : Prop :=
  s.curPhase = c ∧ s.tgtPhase = t ∧ s.resetting = res ∧ s.underway = uw ∧
  s.resetTgt = rt ∧ s.pv.stepsToGo = 0 ∧ s.ls.stepsToGo = 0

end MoonDisplay

/-- A channel parked at location 2048 with the default modulus 4096, half a
revolution away from location 0. -/
def chanHalf : ULN2003.Chan :=
  { location := 2048, stepsToGo := 0, modulus := 4096, phase := 0, outputs := 0 }

/-- A channel parked at location 5 with the default modulus 4096. -/
def chanFive : ULN2003.Chan :=
  { location := 5, stepsToGo := 0, modulus := 4096, phase := 0, outputs := 0 }

/-- A channel in mid-motion: 5 steps pending clockwise, coils energized with
the pattern for winding phase 3. -/
def chanMoving : ULN2003.Chan :=
  { location := 7, stepsToGo := 5, modulus := 4096, phase := 3, outputs := 12 }

/-- The channel state `setModulus(4294967295)` produces from `chanFive`: the
unsigned argument wraps to -1 when stored in the signed `long` modulus. -/
def chanWrapped : ULN2003.Chan :=
  { location := 5, stepsToGo := 0, modulus := -1, phase := 0, outputs := 0 }

/-! ## Arithmetic facts about the truncating `%` and `/` used by the C++ code -/

theorem tmod_neg_left (a b : Int) : (-a).tmod b = -(a.tmod b) := by
  rw [Int.tmod_def, Int.tmod_def, Int.neg_tdiv, Int.mul_neg]
  ring

theorem tmod_gt_neg (a : Int) {b : Int} (hb : 0 < b) : -b < a.tmod b := by
  rcases le_or_lt 0 a with ha | ha
  · calc -b < 0 := by omega
    _ ≤ a.tmod b := Int.tmod_nonneg b ha
  · have h1 : (-a).tmod b < b := Int.tmod_lt_of_pos (-a) hb
    have h2 : (-a).tmod b = -(a.tmod b) := tmod_neg_left a b
    omega

theorem tmod_modEq (a b : Int) : a.tmod b ≡ a [ZMOD b] := by
  have h := Int.tdiv_add_tmod a b
  have hd : a - a.tmod b = b * a.tdiv b := by omega
  exact Int.modEq_iff_dvd.mpr ⟨a.tdiv b, hd⟩

theorem reduceDelta_zero (d : Int) : ULN2003.reduceDelta d 0 = d := by
  simp [ULN2003.reduceDelta]

theorem reduceDelta_modEq (d m : Int) : ULN2003.reduceDelta d m ≡ d [ZMOD m] := by
  unfold ULN2003.reduceDelta
  by_cases hm : m = 0
  · simp [hm]
  · simp only [ne_eq, hm, not_false_eq_true, if_true]
    have h : Int.tmod d m ≡ d [ZMOD m] := tmod_modEq d m
    have hms : (m : Int) ≡ 0 [ZMOD m] := (Int.modEq_iff_dvd.mpr (by simp)).symm
    by_cases h1 : Int.tmod d m > Int.tdiv m 2
    · simp only [h1, if_true]
      calc Int.tmod d m - m ≡ d - 0 [ZMOD m] := Int.ModEq.sub h hms
      _ = d := by ring
    · simp only [h1, if_false]
      by_cases h2 : Int.tmod d m < Int.tdiv m (-2)
      · simp only [h2, if_true]
        calc Int.tmod d m + m ≡ d + 0 [ZMOD m] := Int.ModEq.add h hms
        _ = d := by ring
      · simp only [h2, if_false]
        exact h

theorem reduceDelta_bounds (d : Int) {m : Int} (hm : 0 < m) :
    -(Int.tdiv m 2) ≤ ULN2003.reduceDelta d m ∧ ULN2003.reduceDelta d m ≤ Int.tdiv m 2 := by
  unfold ULN2003.reduceDelta
  have hm0 : m ≠ 0 := by omega
  simp only [ne_eq, hm0, not_false_eq_true, if_true]
  have hlo : -m < Int.tmod d m := tmod_gt_neg d hm
  have hhi : Int.tmod d m < m := Int.tmod_lt_of_pos d hm
  have hdiv : 2 * Int.tdiv m 2 + Int.tmod m 2 = m := Int.tdiv_add_tmod m 2
  have hr0 : 0 ≤ Int.tmod m 2 := Int.tmod_nonneg 2 (by omega)
  have hr2 : Int.tmod m 2 < 2 := Int.tmod_lt_of_pos m (by omega)
  have hneg2 : Int.tdiv m (-2) = -(Int.tdiv m 2) := by
    rw [Int.tdiv_neg]
  by_cases h1 : Int.tmod d m > Int.tdiv m 2
  · simp only [h1, if_true]
    omega
  · simp only [h1, if_false]
    by_cases h2 : Int.tmod d m < Int.tdiv m (-2)
    · simp only [h2, if_true]
      rw [hneg2] at h2
      omega
    · simp only [h2, if_false]
      rw [hneg2] at h2
      omega

/-! ## C4: shortest-path reduction in driveTo -/

/-- C4 counterexample: with modulus 4096 and location 2048, `driveTo(0)` sets
`stepsRemaining` to -2048, which is congruent to the delta but does NOT lie
in the claimed half-open interval `(-modulus/2, modulus/2]`: it equals
`-modulus/2` exactly. -/
theorem driveTo_half_turn_escapes_open_interval :
    (ULN2003.driveTo 0 chanHalf).stepsToGo = -2048 ∧
    ¬(-(Int.tdiv chanHalf.modulus 2) < (ULN2003.driveTo 0 chanHalf).stepsToGo) := by
  constructor
  · rfl
  · decide

/-- C4 amended: for a channel with positive modulus `m`, `driveTo` sets
`stepsRemaining` to a value congruent to `absoluteLocation - location` modulo
`m` lying in the CLOSED interval `[-m/2, m/2]` (both endpoints reachable when
`m` is even), discarding any previously pending steps; with modulus 0 it sets
exactly `absoluteLocation - location`. -/
theorem driveTo_shortest_path (c : ULN2003.Chan) (loc : Int) (_hm : 0 ≤ c.modulus) :
    (c.modulus = 0 → (ULN2003.driveTo loc c).stepsToGo = loc - c.location) ∧
    (0 < c.modulus →
      (ULN2003.driveTo loc c).stepsToGo ≡ loc - c.location [ZMOD c.modulus] ∧
      -(Int.tdiv c.modulus 2) ≤ (ULN2003.driveTo loc c).stepsToGo ∧
      (ULN2003.driveTo loc c).stepsToGo ≤ Int.tdiv c.modulus 2) ∧
    (ULN2003.driveTo loc c).stepsToGo =
      (ULN2003.driveTo loc { c with stepsToGo := 37 }).stepsToGo := by
  refine ⟨fun h0 => ?_, fun hpos => ?_, ?_⟩
  · simp [ULN2003.driveTo, ULN2003.moveIt, h0, reduceDelta_zero]
  · refine ⟨?_, (reduceDelta_bounds (loc - c.location) hpos).1,
      (reduceDelta_bounds (loc - c.location) hpos).2⟩
    exact reduceDelta_modEq (loc - c.location) c.modulus
  · rfl

theorem driveTo_shortest_path_witness :
    (0 : Int) ≤ chanFive.modulus ∧
    ((chanFive.modulus = 0 → (ULN2003.driveTo 9 chanFive).stepsToGo = 9 - chanFive.location) ∧
    (0 < chanFive.modulus →
      (ULN2003.driveTo 9 chanFive).stepsToGo ≡ 9 - chanFive.location [ZMOD chanFive.modulus] ∧
      -(Int.tdiv chanFive.modulus 2) ≤ (ULN2003.driveTo 9 chanFive).stepsToGo ∧
      (ULN2003.driveTo 9 chanFive).stepsToGo ≤ Int.tdiv chanFive.modulus 2) ∧
    (ULN2003.driveTo 9 chanFive).stepsToGo =
      (ULN2003.driveTo 9 { chanFive with stepsToGo := 37 }).stepsToGo) :=
  ⟨by decide, driveTo_shortest_path chanFive 9 (by decide)⟩

/-! ## C5: the timer callback dispatches exactly one step -/

theorem adjust_eq_emod {x m : Int} (_hm : 0 < m) (h1 : -m ≤ x) (h2 : x < 2 * m) :
    (if x < 0 then x + m else if x ≥ m then x - m else x) = x % m := by
  have e1 : (x + m) % m = x % m := by
    have h := Int.add_mul_emod_self_left x m 1
    have hx : x + m * 1 = x + m := by ring
    rw [hx] at h
    exact h
  have e2 : (x - m) % m = x % m := by
    have h := Int.add_mul_emod_self_left x m (-1)
    have hx : x + m * (-1) = x - m := by ring
    rw [hx] at h
    exact h
  split
  · have e3 : (x + m) % m = x + m := Int.emod_eq_of_lt (by omega) (by omega)
    omega
  · split
    · have e3 : (x - m) % m = x - m := Int.emod_eq_of_lt (by omega) (by omega)
      omega
    · have e3 : x % m = x := Int.emod_eq_of_lt (by omega) (by omega)
      omega

theorem tick_eq_dispatch {c : ULN2003.Chan} (hne : c.stepsToGo ≠ 0) :
    ULN2003.tick true c = ULN2003.dispatchStep c := by
  simp [ULN2003.tick, hne]

theorem dispatch_phase (c : ULN2003.Chan) :
    (ULN2003.dispatchStep c).phase = (c.phase + (if c.stepsToGo < 0 then 1 else 7)) % 8 := rfl

theorem dispatch_outputs (c : ULN2003.Chan) :
    (ULN2003.dispatchStep c).outputs =
      (if c.stepsToGo.natAbs = 1 then 0
       else ULN2003.phState.getD ((c.phase + (if c.stepsToGo < 0 then 1 else 7)) % 8) 0) := rfl

theorem dispatch_modulus (c : ULN2003.Chan) :
    (ULN2003.dispatchStep c).modulus = c.modulus := rfl

theorem dispatch_stepsToGo (c : ULN2003.Chan) :
    (ULN2003.dispatchStep c).stepsToGo =
      c.stepsToGo - (if c.stepsToGo > 0 then 1 else -1) := rfl

theorem dispatch_location (c : ULN2003.Chan) :
    (ULN2003.dispatchStep c).location =
      (if c.modulus ≠ 0 then
        (if c.location + (if c.stepsToGo > 0 then 1 else -1) < 0 then
          c.location + (if c.stepsToGo > 0 then 1 else -1) + c.modulus
        else if c.location + (if c.stepsToGo > 0 then 1 else -1) ≥ c.modulus then
          c.location + (if c.stepsToGo > 0 then 1 else -1) - c.modulus
        else c.location + (if c.stepsToGo > 0 then 1 else -1))
      else c.location + (if c.stepsToGo > 0 then 1 else -1)) := rfl

/-- C5: for a channel with pending steps whose due time has arrived, one
timer-callback invocation advances the winding phase by +1 mod 8
(counterclockwise pending steps) or -1 mod 8 (clockwise), drives the coil
outputs with the half-step table entry for the new winding phase — or all
off if the dispatched step was the last one — moves `location` one step with
wraparound into `[0, modulus)` when the modulus is nonzero, and decreases
the magnitude of `stepsRemaining` by exactly one. -/
theorem tick_dispatches_one_step (c : ULN2003.Chan)
    (hne : c.stepsToGo ≠ 0) (_hm : 0 ≤ c.modulus)
    (hloc : 0 < c.modulus → 0 ≤ c.location ∧ c.location < c.modulus) :
    (ULN2003.tick true c).phase = (c.phase + (if c.stepsToGo < 0 then 1 else 7)) % 8 ∧
    (ULN2003.tick true c).outputs =
      (if c.stepsToGo.natAbs = 1 then 0
       else ULN2003.phState.getD ((ULN2003.tick true c).phase) 0) ∧
    (0 < c.modulus →
      (ULN2003.tick true c).location =
        (c.location + (if c.stepsToGo > 0 then 1 else -1)) % c.modulus) ∧
    (c.modulus = 0 →
      (ULN2003.tick true c).location = c.location + (if c.stepsToGo > 0 then 1 else -1)) ∧
    (ULN2003.tick true c).stepsToGo.natAbs = c.stepsToGo.natAbs - 1 ∧
    (ULN2003.tick true c).modulus = c.modulus := by
  rw [tick_eq_dispatch hne]
  refine ⟨dispatch_phase c, ?_, fun hpos => ?_, fun h0 => ?_, ?_, dispatch_modulus c⟩
  · rw [dispatch_outputs c, dispatch_phase c]
  · rw [dispatch_location c]
    have hm0 : c.modulus ≠ 0 := by omega
    simp only [hm0, ne_eq, not_false_eq_true, if_true]
    have hl := hloc hpos
    exact adjust_eq_emod hpos (by split <;> omega) (by split <;> omega)
  · rw [dispatch_location c]
    simp [h0]
  · rw [dispatch_stepsToGo c]
    split <;> omega

theorem tick_dispatches_one_step_witness :
    (chanMoving.stepsToGo ≠ 0 ∧ (0 : Int) ≤ chanMoving.modulus) ∧
    ((ULN2003.tick true chanMoving).phase =
      (chanMoving.phase + (if chanMoving.stepsToGo < 0 then 1 else 7)) % 8 ∧
    (ULN2003.tick true chanMoving).outputs =
      (if chanMoving.stepsToGo.natAbs = 1 then 0
       else ULN2003.phState.getD ((ULN2003.tick true chanMoving).phase) 0) ∧
    (0 < chanMoving.modulus →
      (ULN2003.tick true chanMoving).location =
        (chanMoving.location + (if chanMoving.stepsToGo > 0 then 1 else -1)) % chanMoving.modulus) ∧
    (chanMoving.modulus = 0 →
      (ULN2003.tick true chanMoving).location =
        chanMoving.location + (if chanMoving.stepsToGo > 0 then 1 else -1)) ∧
    (ULN2003.tick true chanMoving).stepsToGo.natAbs = chanMoving.stepsToGo.natAbs - 1 ∧
    (ULN2003.tick true chanMoving).modulus = chanMoving.modulus) :=
  ⟨⟨by decide, by decide⟩,
    tick_dispatches_one_step chanMoving (by decide) (by decide) (by decide)⟩

/-! ## C6: stop clamps pending steps and reaches a de-energized idle -/

theorem tick_of_idle {c : ULN2003.Chan} (h : c.stepsToGo = 0) :
    ULN2003.tick true c = c := by
  simp [ULN2003.tick, h]

/-- C6: after `stop()`, `stepsRemaining` is 1 if it was positive, -1 if it
was negative and 0 if it was 0; at most one further step is dispatched
(a second timer callback is a no-op), after which `stepsRemaining` is 0,
`isMoving()` is false and all four coil outputs are off.  The hypothesis is
the standing idle-means-de-energized invariant of the channel. -/
theorem stop_clamps_and_idles (c : ULN2003.Chan)
    (hIdleOff : c.stepsToGo = 0 → c.outputs = 0) :
    (ULN2003.stop c).stepsToGo =
      (if c.stepsToGo > 0 then 1 else if c.stepsToGo < 0 then -1 else 0) ∧
    (ULN2003.tick true (ULN2003.stop c)).stepsToGo = 0 ∧
    (ULN2003.tick true (ULN2003.stop c)).outputs = 0 ∧
    ULN2003.isMoving (ULN2003.tick true (ULN2003.stop c)) = false ∧
    ULN2003.tick true (ULN2003.tick true (ULN2003.stop c)) =
      ULN2003.tick true (ULN2003.stop c) := by
  have hs0 : (ULN2003.stop c).stepsToGo =
      (if c.stepsToGo > 0 then 1 else if c.stepsToGo < 0 then -1 else 0) := rfl
  have houts : (ULN2003.stop c).outputs = c.outputs := rfl
  refine ⟨hs0, ?_⟩
  rcases lt_trichotomy c.stepsToGo 0 with hlt | heq | hgt
  · have h1 : (ULN2003.stop c).stepsToGo = -1 := by rw [hs0]; split <;> omega
    have hd := tick_eq_dispatch (c := ULN2003.stop c) (by rw [h1]; decide)
    have hsg : (ULN2003.tick true (ULN2003.stop c)).stepsToGo = 0 := by
      rw [hd, dispatch_stepsToGo, h1]; decide
    refine ⟨hsg, ?_, by simp [ULN2003.isMoving, hsg], tick_of_idle hsg⟩
    rw [hd, dispatch_outputs, h1]; norm_num
  · have h1 : (ULN2003.stop c).stepsToGo = 0 := by rw [hs0]; split <;> omega
    have ht := tick_of_idle h1
    rw [ht]
    exact ⟨h1, houts.trans (hIdleOff heq), by simp [ULN2003.isMoving, h1],
      by rw [tick_of_idle h1]⟩
  · have h1 : (ULN2003.stop c).stepsToGo = 1 := by rw [hs0]; split <;> omega
    have hd := tick_eq_dispatch (c := ULN2003.stop c) (by rw [h1]; decide)
    have hsg : (ULN2003.tick true (ULN2003.stop c)).stepsToGo = 0 := by
      rw [hd, dispatch_stepsToGo, h1]; decide
    refine ⟨hsg, ?_, by simp [ULN2003.isMoving, hsg], tick_of_idle hsg⟩
    rw [hd, dispatch_outputs, h1]; norm_num

theorem stop_clamps_and_idles_witness :
    (chanMoving.stepsToGo = 0 → chanMoving.outputs = 0) ∧
    ((ULN2003.stop chanMoving).stepsToGo =
      (if chanMoving.stepsToGo > 0 then 1 else if chanMoving.stepsToGo < 0 then -1 else 0) ∧
    (ULN2003.tick true (ULN2003.stop chanMoving)).stepsToGo = 0 ∧
    (ULN2003.tick true (ULN2003.stop chanMoving)).outputs = 0 ∧
    ULN2003.isMoving (ULN2003.tick true (ULN2003.stop chanMoving)) = false ∧
    ULN2003.tick true (ULN2003.tick true (ULN2003.stop chanMoving)) =
      ULN2003.tick true (ULN2003.stop chanMoving)) :=
  ⟨by decide, stop_clamps_and_idles chanMoving (by decide)⟩

/-! ## C8: driveTo followed by enough ticks reaches the target modulo the modulus -/

theorem add_modEq_self (x m : Int) : x + m ≡ x [ZMOD m] := by
  show (x + m) % m = x % m
  have h := Int.add_mul_emod_self_left x m 1
  have hx : x + m * 1 = x + m := by ring
  rw [hx] at h
  exact h

theorem sub_modEq_self (x m : Int) : x - m ≡ x [ZMOD m] := by
  show (x - m) % m = x % m
  have h := Int.add_mul_emod_self_left x m (-1)
  have hx : x + m * (-1) = x - m := by ring
  rw [hx] at h
  exact h

theorem dispatch_location_modEq (c : ULN2003.Chan) :
    (ULN2003.dispatchStep c).location ≡
      c.location + (if c.stepsToGo > 0 then 1 else -1) [ZMOD c.modulus] := by
  rw [dispatch_location]
  generalize c.location + (if c.stepsToGo > 0 then 1 else -1) = A
  by_cases hm : c.modulus ≠ 0
  · rw [if_pos hm]
    by_cases h1 : A < 0
    · rw [if_pos h1]
      exact add_modEq_self _ _
    · rw [if_neg h1]
      by_cases h2 : A ≥ c.modulus
      · rw [if_pos h2]
        exact sub_modEq_self _ _
      · rw [if_neg h2]
  · rw [if_neg hm]

theorem tickN_completes : ∀ (n : Nat) (c : ULN2003.Chan), c.stepsToGo.natAbs = n →
    (ULN2003.tickN n c).stepsToGo = 0 ∧
    (ULN2003.tickN n c).modulus = c.modulus ∧
    (ULN2003.tickN n c).location ≡ c.location + c.stepsToGo [ZMOD c.modulus]
  | 0, c, h => by
    have h0 : c.stepsToGo = 0 := by omega
    simp [ULN2003.tickN, h0]
  | n + 1, c, h => by
    have hne : c.stepsToGo ≠ 0 := by omega
    have ht : ULN2003.tick true c = ULN2003.dispatchStep c := tick_eq_dispatch hne
    have h1 : (ULN2003.dispatchStep c).stepsToGo.natAbs = n := by
      rw [dispatch_stepsToGo]; split <;> omega
    have h2 := tickN_completes n (ULN2003.dispatchStep c) h1
    have hms : (ULN2003.dispatchStep c).modulus = c.modulus := dispatch_modulus c
    simp only [ULN2003.tickN, ht]
    refine ⟨h2.1, h2.2.1.trans hms, ?_⟩
    have hc := h2.2.2
    rw [hms] at hc
    calc (ULN2003.tickN n (ULN2003.dispatchStep c)).location
        ≡ (ULN2003.dispatchStep c).location + (ULN2003.dispatchStep c).stepsToGo
            [ZMOD c.modulus] := hc
      _ ≡ (c.location + (if c.stepsToGo > 0 then 1 else -1)) +
            (ULN2003.dispatchStep c).stepsToGo [ZMOD c.modulus] :=
        Int.ModEq.add_right _ (dispatch_location_modEq c)
      _ = c.location + c.stepsToGo := by rw [dispatch_stepsToGo]; ring

/-- C8: for any channel, any starting location and any `loc`, `driveTo(loc)`
followed by enough timer callbacks for the pending steps to reach 0 leaves
`getLocation()` congruent to `loc` modulo the modulus, and exactly equal to
`loc` when the modulus is 0. -/
theorem driveTo_ticks_round_trip (c : ULN2003.Chan) (loc : Int) (_hm : 0 ≤ c.modulus) :
    (ULN2003.tickN (ULN2003.driveTo loc c).stepsToGo.natAbs
        (ULN2003.driveTo loc c)).stepsToGo = 0 ∧
    ULN2003.getLocation (ULN2003.tickN (ULN2003.driveTo loc c).stepsToGo.natAbs
        (ULN2003.driveTo loc c)) ≡ loc [ZMOD c.modulus] ∧
    (c.modulus = 0 →
      ULN2003.getLocation (ULN2003.tickN (ULN2003.driveTo loc c).stepsToGo.natAbs
        (ULN2003.driveTo loc c)) = loc) := by
  have hdm : (ULN2003.driveTo loc c).modulus = c.modulus := rfl
  have hdl : (ULN2003.driveTo loc c).location = c.location := rfl
  have hds : (ULN2003.driveTo loc c).stepsToGo =
      ULN2003.reduceDelta (loc - c.location) c.modulus := rfl
  have h := tickN_completes (ULN2003.driveTo loc c).stepsToGo.natAbs
    (ULN2003.driveTo loc c) rfl
  have hc := h.2.2
  rw [hdm, hdl] at hc
  have hcong : ULN2003.getLocation (ULN2003.tickN (ULN2003.driveTo loc c).stepsToGo.natAbs
      (ULN2003.driveTo loc c)) ≡ loc [ZMOD c.modulus] := by
    calc (ULN2003.tickN (ULN2003.driveTo loc c).stepsToGo.natAbs
          (ULN2003.driveTo loc c)).location
        ≡ c.location + (ULN2003.driveTo loc c).stepsToGo [ZMOD c.modulus] := hc
      _ ≡ c.location + (loc - c.location) [ZMOD c.modulus] := by
          rw [hds]
          exact Int.ModEq.add_left _ (reduceDelta_modEq _ _)
      _ = loc := by ring
  refine ⟨h.1, hcong, fun h0 => ?_⟩
  have hz := hcong
  rw [h0] at hz
  simpa [Int.ModEq] using hz

theorem driveTo_ticks_round_trip_witness :
    (0 : Int) ≤ chanFive.modulus ∧
    ((ULN2003.tickN (ULN2003.driveTo 9 chanFive).stepsToGo.natAbs
        (ULN2003.driveTo 9 chanFive)).stepsToGo = 0 ∧
    ULN2003.getLocation (ULN2003.tickN (ULN2003.driveTo 9 chanFive).stepsToGo.natAbs
        (ULN2003.driveTo 9 chanFive)) ≡ 9 [ZMOD chanFive.modulus] ∧
    (chanFive.modulus = 0 →
      ULN2003.getLocation (ULN2003.tickN (ULN2003.driveTo 9 chanFive).stepsToGo.natAbs
        (ULN2003.driveTo 9 chanFive)) = 9)) :=
  ⟨by decide, driveTo_ticks_round_trip chanFive 9 (by decide)⟩

/-! ## C9: the location range invariant -/

theorem ofU32_small {n : Nat} (h : n < 2147483648) : ofU32 n = (n : Int) := by
  unfold ofU32
  rw [Nat.mod_eq_of_lt (by omega), if_pos (by omega)]

/-- Characterization of `setModulus` for arguments that fit in a positive
signed long. -/
theorem setModulus_ok (c : ULN2003.Chan) {sm : Nat} (h1 : 1 ≤ sm) (h2 : sm ≤ 2147483647) :
    ULN2003.setModulus sm c =
      .ok { c with modulus := (sm : Int),
                   location := ((toU32 c.location % sm : Nat) : Int) } := by
  have hs : sm % 4294967296 = sm := Nat.mod_eq_of_lt (by omega)
  have ht : toU32 c.location % sm < 2147483648 :=
    lt_of_lt_of_le (Nat.mod_lt _ (by omega)) (by omega)
  simp only [ULN2003.setModulus, hs]
  rw [if_neg (show ¬sm = 0 by omega)]
  rw [ofU32_small (show sm < 2147483648 by omega), ofU32_small ht]
  rw [if_neg (not_lt.mpr (Int.ofNat_nonneg _))]

/-- C9 counterexample: `setModulus(4294967295)` succeeds but stores `modulus
= -1` (the unsigned argument reinterpreted as a signed long), so the claimed
invariant `0 <= location < modulus` fails for this nonzero modulus. -/
theorem setModulus_large_breaks_invariant :
    ULN2003.setModulus 4294967295 chanFive = .ok chanWrapped ∧
    chanWrapped.modulus ≠ 0 ∧
    ¬(0 ≤ chanWrapped.location ∧ chanWrapped.location < chanWrapped.modulus) :=
  ⟨rfl, by decide, by decide⟩

/-- C9 amended: with a positive stored modulus, `0 <= location < modulus`
holds after a timer-callback step and after `setLocation` with any argument;
and `setModulus` re-establishes it for any nonzero argument up to
2^31 - 1 (the largest value that stays positive in the signed long).  For
larger arguments the stored modulus wraps negative and the invariant can
fail (see the counterexample). -/
theorem location_invariant_amended (c : ULN2003.Chan) (l : Int) (sm : Nat)
    (hm : 0 < c.modulus) (hloc : 0 ≤ c.location ∧ c.location < c.modulus)
    (hsm : 1 ≤ sm ∧ sm ≤ 2147483647) :
    (0 ≤ (ULN2003.tick true c).location ∧
      (ULN2003.tick true c).location < (ULN2003.tick true c).modulus) ∧
    (0 ≤ (ULN2003.setLocation l c).location ∧
      (ULN2003.setLocation l c).location < (ULN2003.setLocation l c).modulus) ∧
    (∀ c', ULN2003.setModulus sm c = .ok c' →
      0 < c'.modulus ∧ 0 ≤ c'.location ∧ c'.location < c'.modulus) := by
  refine ⟨?_, ?_, ?_⟩
  · by_cases hz : c.stepsToGo = 0
    · rw [tick_of_idle hz]
      exact hloc
    · rw [tick_eq_dispatch hz, dispatch_location, dispatch_modulus]
      split_ifs <;> omega
  · have hm0 : c.modulus ≠ 0 := by omega
    have h1 := tmod_gt_neg l hm
    have h2 := Int.tmod_lt_of_pos l hm
    have em : (ULN2003.setLocation l c).modulus = c.modulus := rfl
    have e : (ULN2003.setLocation l c).location =
        (if c.modulus ≠ 0 then
          (if Int.tmod l c.modulus < 0 then Int.tmod l c.modulus + c.modulus
           else Int.tmod l c.modulus)
         else l) := rfl
    rw [em, e, if_pos hm0]
    split_ifs <;> omega
  · intro c' hc'
    rw [setModulus_ok c hsm.1 hsm.2] at hc'
    injection hc' with h'
    subst h'
    have ht : toU32 c.location % sm < sm := Nat.mod_lt _ (by omega)
    refine ⟨?_, ?_, ?_⟩
    · show (0 : Int) < (sm : Int)
      exact_mod_cast Nat.pos_of_ne_zero (by omega)
    · show (0 : Int) ≤ ((toU32 c.location % sm : Nat) : Int)
      exact Int.ofNat_nonneg _
    · show ((toU32 c.location % sm : Nat) : Int) < (sm : Int)
      exact_mod_cast ht

theorem location_invariant_amended_witness :
    ((0 : Int) < chanFive.modulus ∧ (0 ≤ chanFive.location ∧ chanFive.location < chanFive.modulus) ∧
      (1 ≤ 60 ∧ 60 ≤ 2147483647)) ∧
    ((0 ≤ (ULN2003.tick true chanFive).location ∧
      (ULN2003.tick true chanFive).location < (ULN2003.tick true chanFive).modulus) ∧
    (0 ≤ (ULN2003.setLocation (-7) chanFive).location ∧
      (ULN2003.setLocation (-7) chanFive).location < (ULN2003.setLocation (-7) chanFive).modulus) ∧
    (∀ c', ULN2003.setModulus 60 chanFive = .ok c' →
      0 < c'.modulus ∧ 0 ≤ c'.location ∧ c'.location < c'.modulus)) :=
  ⟨⟨by decide, by decide, by decide⟩,
    location_invariant_amended chanFive (-7) 60 (by decide) (by decide) (by decide)⟩

/-! ## C2: setModulus(0) evaluates a remainder by zero -/

/-- C2: `setModulus(0)` executes `location %= 0`, a remainder with zero
divisor, which C++ leaves undefined — the function does not treat 0 as the
"unbounded linear position" sentinel the way every other operation does.
`MoonDisplay::begin` calls `setModulus(0)` on both channels, so even a valid
`begin(5)` reaches the undefined evaluation. -/
theorem setModulus_zero_undefined :
    ULN2003.setModulus 0 ULN2003.begin = .error .divByZero ∧
    MoonDisplay.begin 5 (MoonDisplay.mkIdle 0) = .error .divByZero :=
  ⟨rfl, rfl⟩

/-! ## C1: the showPhase range check is off by one -/

/-- C1: on an idle, non-resetting display, `showPhase(60)` is accepted: the
bounds test `phase > sizeof(phasePva)/sizeof(phasePva[0])` uses `>` where
`>=` is needed, so the out-of-range phase 60 returns true and is stored in
`targetPhase` — after which `run()` would read `phasePva[60]`, out of
bounds.  `showPhase(61)` is rejected as the spec describes. -/
theorem showPhase_sixty_accepted :
    (MoonDisplay.showPhase 60 (MoonDisplay.mkIdle 10)).1 = true ∧
    (MoonDisplay.showPhase 60 (MoonDisplay.mkIdle 10)).2 =
      { MoonDisplay.mkIdle 10 with tgtPhase := 60 } ∧
    (MoonDisplay.showPhase 61 (MoonDisplay.mkIdle 10)).1 = false ∧
    MoonDisplay.phasePvaRead 60 = .error .oobRead :=
  ⟨rfl, rfl, rfl, rfl⟩

/-! ## C10: assume and begin index the pivot table with no range check -/

/-- C10: `assume(phase)` and `begin(phase)` read `phasePva[phase]` directly:
the read is in bounds exactly when `0 <= phase <= 59`, and an out-of-range
phase produces an out-of-bounds read (`Err.oobRead`) rather than a
rejection.  (`begin` with an in-range phase fails later for a different
reason — the `setModulus(0)` remainder by zero — never with a range
rejection.) -/
theorem assume_begin_unchecked_table_access (phase : Int) (s : MoonDisplay.MD) :
    ((MoonDisplay.assume phase s).isOk = true ↔ (0 ≤ phase ∧ phase ≤ 59)) ∧
    (MoonDisplay.begin phase s = .error .oobRead ↔ ¬(0 ≤ phase ∧ phase ≤ 59)) := by
  by_cases h : 0 ≤ phase ∧ phase < 60
  · have hv : MoonDisplay.phasePvaRead phase =
        .ok (MoonDisplay.phasePva2.getD phase.toNat 0) := by
      unfold MoonDisplay.phasePvaRead
      rw [if_pos h]
    have ha : (MoonDisplay.assume phase s).isOk = true := by
      unfold MoonDisplay.assume
      rw [hv]
      rfl
    have hb : MoonDisplay.begin phase s = .error .divByZero := by
      unfold MoonDisplay.begin
      rw [hv]
      rfl
    rw [ha, hb]
    constructor
    · simp only [true_iff]
      omega
    · simp only [Except.error.injEq, iff_iff_implies_and_implies]
      constructor
      · intro heq
        cases heq
      · intro hn
        omega
  · have hv : MoonDisplay.phasePvaRead phase = .error .oobRead := by
      unfold MoonDisplay.phasePvaRead
      rw [if_neg h]
    have ha : (MoonDisplay.assume phase s).isOk = false := by
      unfold MoonDisplay.assume
      rw [hv]
      rfl
    have hb : MoonDisplay.begin phase s = .error .oobRead := by
      unfold MoonDisplay.begin
      rw [hv]
      rfl
    rw [ha, hb]
    constructor
    · simp only [Bool.false_eq_true, false_iff]
      omega
    · simp only [true_iff]
      omega

/-! ## C3: reset maneuvers pass through the intermediate boundary phase -/

/-- C3: starting idle at phase 59 with an accepted `showPhase(0)`, the
`getPhase()` sequence read across repeated polls first reaches 30 at poll 29
and first reaches 0 at poll 30 — so it passes through the intermediate
boundary 30 before arriving at 0; symmetrically, starting at 29 with an
accepted `showPhase(30)`, it first reaches 0 at poll 29 and 30 at poll 30. -/
theorem reset_passes_through_boundary :
    (MoonDisplay.showPhase 0 (MoonDisplay.mkIdle 59)).1 = true ∧
    MoonDisplay.firstHit 30 62 ((MoonDisplay.showPhase 0 (MoonDisplay.mkIdle 59)).2) = some 29 ∧
    MoonDisplay.firstHit 0 62 ((MoonDisplay.showPhase 0 (MoonDisplay.mkIdle 59)).2) = some 30 ∧
    (MoonDisplay.showPhase 30 (MoonDisplay.mkIdle 29)).1 = true ∧
    MoonDisplay.firstHit 0 62 ((MoonDisplay.showPhase 30 (MoonDisplay.mkIdle 29)).2) = some 29 ∧
    MoonDisplay.firstHit 30 62 ((MoonDisplay.showPhase 30 (MoonDisplay.mkIdle 29)).2) = some 30 :=
  ⟨rfl, rfl, rfl, rfl, rfl, rfl⟩

/-! ## settle computes the effect of enough timer callbacks (modulus 0) -/

attribute [ext] ULN2003.Chan

theorem settle_location (c : ULN2003.Chan) :
    (ULN2003.settle c).location = c.location + c.stepsToGo := by
  unfold ULN2003.settle
  split
  · rename_i h
    simp [h]
  · rfl

theorem settle_stepsToGo (c : ULN2003.Chan) : (ULN2003.settle c).stepsToGo = 0 := by
  unfold ULN2003.settle
  split
  · rename_i h
    exact h
  · rfl

theorem settle_modulus (c : ULN2003.Chan) : (ULN2003.settle c).modulus = c.modulus := by
  unfold ULN2003.settle
  split <;> rfl

theorem settle_outputs (c : ULN2003.Chan) :
    (ULN2003.settle c).outputs = if c.stepsToGo = 0 then c.outputs else 0 := by
  unfold ULN2003.settle
  split <;> rename_i h <;> simp [h]

theorem settle_phase (c : ULN2003.Chan) :
    (ULN2003.settle c).phase =
      (if c.stepsToGo = 0 then c.phase
       else (c.phase + (if c.stepsToGo < 0 then 1 else 7) * c.stepsToGo.natAbs) % 8) := by
  unfold ULN2003.settle
  split <;> rename_i h <;> simp [h]

theorem settle_eq_tickN : ∀ (n : Nat) (c : ULN2003.Chan), c.modulus = 0 →
    c.stepsToGo.natAbs = n → ULN2003.tickN n c = ULN2003.settle c
  | 0, c, _, h => by
    have h0 : c.stepsToGo = 0 := by omega
    show c = ULN2003.settle c
    unfold ULN2003.settle
    rw [if_pos h0]
  | n + 1, c, hm, h => by
    have hne : c.stepsToGo ≠ 0 := by omega
    have h1 : (ULN2003.dispatchStep c).stepsToGo.natAbs = n := by
      rw [dispatch_stepsToGo]
      split <;> omega
    have hm1 : (ULN2003.dispatchStep c).modulus = 0 := (dispatch_modulus c).trans hm
    have hIH := settle_eq_tickN n (ULN2003.dispatchStep c) hm1 h1
    show ULN2003.tickN n (ULN2003.tick true c) = ULN2003.settle c
    rw [tick_eq_dispatch hne, hIH]
    have hdLoc : (ULN2003.dispatchStep c).location =
        c.location + (if c.stepsToGo > 0 then 1 else -1) := by
      rw [dispatch_location, if_neg (by simp [hm])]
    ext
    · rw [settle_location, settle_location, hdLoc, dispatch_stepsToGo]
      split <;> ring
    · rw [settle_stepsToGo, settle_stepsToGo]
    · rw [settle_modulus, settle_modulus, dispatch_modulus]
    · rw [settle_phase, settle_phase, dispatch_phase, dispatch_stepsToGo,
        if_neg hne]
      split_ifs <;> omega
    · rw [settle_outputs, settle_outputs, dispatch_outputs, dispatch_stepsToGo,
        if_neg hne]
      split_ifs <;> omega

/-! ## C7: every accepted request for a different phase eventually arrives -/

theorem poll_climb (s : MoonDisplay.MD) {c t rt : Int} {uw : Bool}
    (hCtl : MoonDisplay.Ctl s c t false uw rt) (hne : c ≠ t)
    (h60 : c + 1 ≠ 60) (h30 : c + 1 ≠ 30)
    (hrange : 0 ≤ c + 1 ∧ c + 1 < 60) :
    MoonDisplay.Ctl (MoonDisplay.poll s) (c + 1) t false true rt ∧
    MoonDisplay.pollRet s = -1 := by
  obtain ⟨h1, h2, h3, h4, h5, h6, h7⟩ := hCtl
  obtain ⟨v, hv⟩ : ∃ w, MoonDisplay.phasePvaRead (c + 1) = .ok w :=
    ⟨_, by unfold MoonDisplay.phasePvaRead; rw [if_pos hrange]⟩
  have hrun : MoonDisplay.run s =
      .ok ({ s with curPhase := c + 1,
                    ls := ULN2003.driveTo (MoonDisplay.pvToLs (MoonDisplay.degToPv v)) s.ls,
                    pv := ULN2003.driveTo (MoonDisplay.degToPv v) s.pv,
                    underway := true }, -1) := by
    unfold MoonDisplay.run
    rw [if_neg (by simp [h6, h7])]
    rw [if_pos (by rw [h1, h2]; exact hne)]
    simp only [h1, h3]
    norm_num
    rw [if_neg h60]
    simp only [eq_self_iff_true, true_and]
    rw [if_neg h30]
    rw [hv]
    rfl
  refine ⟨⟨?_, ?_, ?_, ?_, ?_, ?_, ?_⟩, ?_⟩
  · unfold MoonDisplay.poll
    rw [hrun]
    rfl
  · unfold MoonDisplay.poll
    rw [hrun]
    exact h2
  · unfold MoonDisplay.poll
    rw [hrun]
    exact h3
  · unfold MoonDisplay.poll
    rw [hrun]
    rfl
  · unfold MoonDisplay.poll
    rw [hrun]
    exact h5
  · unfold MoonDisplay.poll
    rw [hrun]
    exact settle_stepsToGo _
  · unfold MoonDisplay.poll
    rw [hrun]
    exact settle_stepsToGo _
  · unfold MoonDisplay.pollRet
    rw [hrun]

theorem settle_of_idle {c : ULN2003.Chan} (h : c.stepsToGo = 0) :
    ULN2003.settle c = c := by
  unfold ULN2003.settle
  rw [if_pos h]

theorem poll_descend (s : MoonDisplay.MD) {c t rt : Int} {uw : Bool}
    (hCtl : MoonDisplay.Ctl s c t true uw rt) (hne : c ≠ t)
    (hrange : 0 ≤ c - 1 ∧ c - 1 < 60) :
    MoonDisplay.Ctl (MoonDisplay.poll s) (c - 1) t true true rt ∧
    MoonDisplay.pollRet s = -1 := by
  obtain ⟨h1, h2, h3, h4, h5, h6, h7⟩ := hCtl
  obtain ⟨v, hv⟩ : ∃ w, MoonDisplay.phasePvaRead (c - 1) = .ok w :=
    ⟨_, by unfold MoonDisplay.phasePvaRead; rw [if_pos hrange]⟩
  have hrun : MoonDisplay.run s =
      .ok ({ s with curPhase := c - 1,
                    ls := ULN2003.driveTo (MoonDisplay.pvToLs (MoonDisplay.degToPv v)) s.ls,
                    pv := ULN2003.driveTo (MoonDisplay.degToPv v) s.pv,
                    underway := true }, -1) := by
    unfold MoonDisplay.run
    rw [if_neg (by simp [h6, h7])]
    rw [if_pos (by rw [h1, h2]; exact hne)]
    simp only [h1, h3]
    norm_num
    rw [show c + -1 = c - 1 by ring]
    rw [hv]
    rfl
  refine ⟨⟨?_, ?_, ?_, ?_, ?_, ?_, ?_⟩, ?_⟩
  · unfold MoonDisplay.poll
    rw [hrun]
    rfl
  · unfold MoonDisplay.poll
    rw [hrun]
    exact h2
  · unfold MoonDisplay.poll
    rw [hrun]
    exact h3
  · unfold MoonDisplay.poll
    rw [hrun]
    rfl
  · unfold MoonDisplay.poll
    rw [hrun]
    exact h5
  · unfold MoonDisplay.poll
    rw [hrun]
    exact settle_stepsToGo _
  · unfold MoonDisplay.poll
    rw [hrun]
    exact settle_stepsToGo _
  · unfold MoonDisplay.pollRet
    rw [hrun]

theorem poll_reset60 (s : MoonDisplay.MD) {t rt : Int} {uw : Bool}
    (hCtl : MoonDisplay.Ctl s 59 t false uw rt) (hne : t ≠ 59) :
    MoonDisplay.Ctl (MoonDisplay.poll s) 58 30 true true t ∧
    MoonDisplay.pollRet s = -1 := by
  obtain ⟨h1, h2, h3, h4, h5, h6, h7⟩ := hCtl
  obtain ⟨v, hv⟩ : ∃ w, MoonDisplay.phasePvaRead 58 = .ok w := ⟨_, rfl⟩
  have hrun : MoonDisplay.run s =
      .ok ({ s with curPhase := 58, tgtPhase := 30, resetting := true, resetTgt := s.tgtPhase,
                    ls := ULN2003.driveTo (MoonDisplay.pvToLs (MoonDisplay.degToPv v)) s.ls,
                    pv := ULN2003.driveTo (MoonDisplay.degToPv v) s.pv,
                    underway := true }, -1) := by
    unfold MoonDisplay.run
    rw [if_neg (by simp [h6, h7])]
    rw [if_pos (by rw [h1, h2]; omega)]
    simp only [h1, h3]
    norm_num
    rw [hv]
    rfl
  refine ⟨⟨?_, ?_, ?_, ?_, ?_, ?_, ?_⟩, ?_⟩
  · unfold MoonDisplay.poll
    rw [hrun]
    rfl
  · unfold MoonDisplay.poll
    rw [hrun]
    rfl
  · unfold MoonDisplay.poll
    rw [hrun]
    rfl
  · unfold MoonDisplay.poll
    rw [hrun]
    rfl
  · unfold MoonDisplay.poll
    rw [hrun]
    exact h2
  · unfold MoonDisplay.poll
    rw [hrun]
    exact settle_stepsToGo _
  · unfold MoonDisplay.poll
    rw [hrun]
    exact settle_stepsToGo _
  · unfold MoonDisplay.pollRet
    rw [hrun]

theorem poll_reset30 (s : MoonDisplay.MD) {t rt : Int} {uw : Bool}
    (hCtl : MoonDisplay.Ctl s 29 t false uw rt) (hne : t ≠ 29) :
    MoonDisplay.Ctl (MoonDisplay.poll s) 28 0 true true t ∧
    MoonDisplay.pollRet s = -1 := by
  obtain ⟨h1, h2, h3, h4, h5, h6, h7⟩ := hCtl
  obtain ⟨v, hv⟩ : ∃ w, MoonDisplay.phasePvaRead 28 = .ok w := ⟨_, rfl⟩
  have hrun : MoonDisplay.run s =
      .ok ({ s with curPhase := 28, tgtPhase := 0, resetting := true, resetTgt := s.tgtPhase,
                    ls := ULN2003.driveTo (MoonDisplay.pvToLs (MoonDisplay.degToPv v)) s.ls,
                    pv := ULN2003.driveTo (MoonDisplay.degToPv v) s.pv,
                    underway := true }, -1) := by
    unfold MoonDisplay.run
    rw [if_neg (by simp [h6, h7])]
    rw [if_pos (by rw [h1, h2]; omega)]
    simp only [h1, h3]
    norm_num
    rw [hv]
    rfl
  refine ⟨⟨?_, ?_, ?_, ?_, ?_, ?_, ?_⟩, ?_⟩
  · unfold MoonDisplay.poll
    rw [hrun]
    rfl
  · unfold MoonDisplay.poll
    rw [hrun]
    rfl
  · unfold MoonDisplay.poll
    rw [hrun]
    rfl
  · unfold MoonDisplay.poll
    rw [hrun]
    rfl
  · unfold MoonDisplay.poll
    rw [hrun]
    exact h2
  · unfold MoonDisplay.poll
    rw [hrun]
    exact settle_stepsToGo _
  · unfold MoonDisplay.poll
    rw [hrun]
    exact settle_stepsToGo _
  · unfold MoonDisplay.pollRet
    rw [hrun]

theorem poll_flip_at0 (s : MoonDisplay.MD) {rt : Int}
    (hCtl : MoonDisplay.Ctl s 0 0 true true rt) :
    MoonDisplay.Ctl (MoonDisplay.poll s) 30 rt false false rt ∧
    MoonDisplay.pollRet s = 30 := by
  obtain ⟨h1, h2, h3, h4, h5, h6, h7⟩ := hCtl
  have hrun : MoonDisplay.run s =
      .ok ({ s with curPhase := 30, tgtPhase := s.resetTgt, resetting := false,
                    underway := false }, 30) := by
    unfold MoonDisplay.run
    rw [if_neg (by simp [h6, h7])]
    rw [if_neg (by rw [h1, h2]; omega)]
    simp only [h1, h3, h4]
    norm_num
  refine ⟨⟨?_, ?_, ?_, ?_, ?_, ?_, ?_⟩, ?_⟩
  · unfold MoonDisplay.poll
    rw [hrun]
    rfl
  · unfold MoonDisplay.poll
    rw [hrun]
    exact h5
  · unfold MoonDisplay.poll
    rw [hrun]
    rfl
  · unfold MoonDisplay.poll
    rw [hrun]
    rfl
  · unfold MoonDisplay.poll
    rw [hrun]
    exact h5
  · unfold MoonDisplay.poll
    rw [hrun]
    exact settle_stepsToGo _
  · unfold MoonDisplay.poll
    rw [hrun]
    exact settle_stepsToGo _
  · unfold MoonDisplay.pollRet
    rw [hrun]

theorem poll_flip_at30 (s : MoonDisplay.MD) {rt : Int}
    (hCtl : MoonDisplay.Ctl s 30 30 true true rt) :
    MoonDisplay.Ctl (MoonDisplay.poll s) 0 rt false false rt ∧
    MoonDisplay.pollRet s = 0 := by
  obtain ⟨h1, h2, h3, h4, h5, h6, h7⟩ := hCtl
  have hrun : MoonDisplay.run s =
      .ok ({ s with curPhase := 0, tgtPhase := s.resetTgt, resetting := false,
                    underway := false }, 0) := by
    unfold MoonDisplay.run
    rw [if_neg (by simp [h6, h7])]
    rw [if_neg (by rw [h1, h2]; omega)]
    simp only [h1, h3, h4]
    norm_num
  refine ⟨⟨?_, ?_, ?_, ?_, ?_, ?_, ?_⟩, ?_⟩
  · unfold MoonDisplay.poll
    rw [hrun]
    rfl
  · unfold MoonDisplay.poll
    rw [hrun]
    exact h5
  · unfold MoonDisplay.poll
    rw [hrun]
    rfl
  · unfold MoonDisplay.poll
    rw [hrun]
    rfl
  · unfold MoonDisplay.poll
    rw [hrun]
    exact h5
  · unfold MoonDisplay.poll
    rw [hrun]
    exact settle_stepsToGo _
  · unfold MoonDisplay.poll
    rw [hrun]
    exact settle_stepsToGo _
  · unfold MoonDisplay.pollRet
    rw [hrun]

theorem poll_arrive (s : MoonDisplay.MD) {t rt : Int}
    (hCtl : MoonDisplay.Ctl s t t false true rt) :
    MoonDisplay.Ctl (MoonDisplay.poll s) t t false false rt ∧
    MoonDisplay.pollRet s = t := by
  obtain ⟨h1, h2, h3, h4, h5, h6, h7⟩ := hCtl
  have hrun : MoonDisplay.run s = .ok ({ s with underway := false }, s.curPhase) := by
    unfold MoonDisplay.run
    rw [if_neg (by simp [h6, h7])]
    rw [if_neg (by rw [h1, h2]; omega)]
    rw [if_neg (show ¬(s.resetting = true) by simp [h3])]
    rw [if_pos h4]
  refine ⟨⟨?_, ?_, ?_, ?_, ?_, ?_, ?_⟩, ?_⟩
  · unfold MoonDisplay.poll
    rw [hrun]
    exact h1
  · unfold MoonDisplay.poll
    rw [hrun]
    exact h2
  · unfold MoonDisplay.poll
    rw [hrun]
    exact h3
  · unfold MoonDisplay.poll
    rw [hrun]
    rfl
  · unfold MoonDisplay.poll
    rw [hrun]
    exact h5
  · unfold MoonDisplay.poll
    rw [hrun]
    exact settle_stepsToGo _
  · unfold MoonDisplay.poll
    rw [hrun]
    exact settle_stepsToGo _
  · unfold MoonDisplay.pollRet
    rw [hrun]
    exact h1

theorem poll_fix (s : MoonDisplay.MD) {t rt : Int}
    (hCtl : MoonDisplay.Ctl s t t false false rt) :
    MoonDisplay.poll s = s ∧ MoonDisplay.pollRet s = -1 := by
  obtain ⟨h1, h2, h3, h4, h5, h6, h7⟩ := hCtl
  have hrun : MoonDisplay.run s = .ok (s, -1) := by
    unfold MoonDisplay.run
    rw [if_neg (by simp [h6, h7])]
    rw [if_neg (by rw [h1, h2]; omega)]
    rw [if_neg (show ¬(s.resetting = true) by simp [h3])]
    rw [if_neg (show ¬(s.underway = true) by simp [h4])]
  constructor
  · unfold MoonDisplay.poll
    rw [hrun]
    show MoonDisplay.settleBoth s = s
    unfold MoonDisplay.settleBoth
    rw [settle_of_idle h6, settle_of_idle h7]
  · unfold MoonDisplay.pollRet
    rw [hrun]

theorem pollN_succ (n : Nat) (s : MoonDisplay.MD) :
    MoonDisplay.pollN (n + 1) s = MoonDisplay.poll (MoonDisplay.pollN n s) := by
  induction n generalizing s with
  | zero => rfl
  | succ k ih =>
    show MoonDisplay.pollN (k + 1) (MoonDisplay.poll s) = _
    rw [ih]
    rfl

theorem pollN_add (a b : Nat) (s : MoonDisplay.MD) :
    MoonDisplay.pollN (a + b) s = MoonDisplay.pollN b (MoonDisplay.pollN a s) := by
  induction a generalizing s with
  | zero => simp [MoonDisplay.pollN]
  | succ k ih =>
    have h1 : k + 1 + b = (k + b) + 1 := by omega
    rw [h1]
    show MoonDisplay.pollN (k + b) (MoonDisplay.poll s) = _
    rw [ih]
    rfl

theorem fix_iterate (u : MoonDisplay.MD) {t rt : Int}
    (h : MoonDisplay.Ctl u t t false false rt) :
    ∀ k, MoonDisplay.pollN k u = u := by
  intro k
  induction k with
  | zero => rfl
  | succ m ih =>
    rw [pollN_succ, ih, (poll_fix u h).1]

theorem pollN_climb (d : Nat) : ∀ (u : MoonDisplay.MD) (c e t rt : Int) (uw : Bool),
    MoonDisplay.Ctl u c t false uw rt → e = c + d + 1 → c ≠ t → 0 ≤ c → e ≤ 59 →
    (e ≤ 29 ∨ 30 ≤ c) → (t ≤ c ∨ e ≤ t) →
    ∃ n, MoonDisplay.Ctl (MoonDisplay.pollN n u) e t false true rt := by
  induction d with
  | zero =>
    intro u c e t rt uw hCtl he hct hc0 he59 hcross htc
    have he1 : e = c + 1 := by omega
    subst he1
    have h := poll_climb u hCtl hct (by omega) (by omega) (by constructor <;> omega)
    exact ⟨1, h.1⟩
  | succ k ih =>
    intro u c e t rt uw hCtl he hct hc0 he59 hcross htc
    have h1 := poll_climb u hCtl hct (by omega) (by omega) (by constructor <;> omega)
    obtain ⟨n, hn⟩ := ih (MoonDisplay.poll u) (c + 1) e t rt true h1.1 (by omega)
      (by omega) (by omega) (by omega) (by omega) (by omega)
    exact ⟨1 + n, by rw [pollN_add]; exact hn⟩

theorem pollN_descend (d : Nat) : ∀ (u : MoonDisplay.MD) (c t rt : Int) (uw : Bool),
    MoonDisplay.Ctl u c t true uw rt → c = t + d + 1 → 0 ≤ t → c ≤ 59 →
    ∃ n, MoonDisplay.Ctl (MoonDisplay.pollN n u) t t true true rt := by
  induction d with
  | zero =>
    intro u c t rt uw hCtl he ht0 hc59
    have he1 : t = c - 1 := by omega
    subst he1
    have h := poll_descend u hCtl (by omega) (by constructor <;> omega)
    exact ⟨1, h.1⟩
  | succ k ih =>
    intro u c t rt uw hCtl he ht0 hc59
    have h1 := poll_descend u hCtl (by omega) (by constructor <;> omega)
    obtain ⟨n, hn⟩ := ih (MoonDisplay.poll u) (c - 1) t rt true h1.1 (by omega)
      (by omega) (by omega)
    exact ⟨1 + n, by rw [pollN_add]; exact hn⟩

theorem climb_to (u : MoonDisplay.MD) (c e t rt : Int) (uw : Bool)
    (hCtl : MoonDisplay.Ctl u c t false uw rt) (hlt : c < e) (hct : c ≠ t)
    (hc0 : 0 ≤ c) (he59 : e ≤ 59) (hcross : e ≤ 29 ∨ 30 ≤ c) (htc : t ≤ c ∨ e ≤ t) :
    ∃ n, MoonDisplay.Ctl (MoonDisplay.pollN n u) e t false true rt :=
  pollN_climb (e - c - 1).toNat u c e t rt uw hCtl (by omega) hct hc0 he59 hcross htc

theorem descend_to (u : MoonDisplay.MD) (c t rt : Int) (uw : Bool)
    (hCtl : MoonDisplay.Ctl u c t true uw rt) (hgt : t < c) (ht0 : 0 ≤ t) (hc59 : c ≤ 59) :
    ∃ n, MoonDisplay.Ctl (MoonDisplay.pollN n u) t t true true rt :=
  pollN_descend (c - t - 1).toNat u c t rt uw hCtl (by omega) ht0 hc59

theorem pollN_chain (P Q : MoonDisplay.MD → Prop) {s : MoonDisplay.MD}
    (h1 : ∃ n, P (MoonDisplay.pollN n s))
    (h2 : ∀ u, P u → ∃ m, Q (MoonDisplay.pollN m u)) :
    ∃ k, Q (MoonDisplay.pollN k s) := by
  obtain ⟨n, hn⟩ := h1
  obtain ⟨m, hm⟩ := h2 _ hn
  exact ⟨n + m, by rw [pollN_add]; exact hm⟩

theorem seg_to29 (u : MoonDisplay.MD) (c t rt : Int) (uw : Bool)
    (hCtl : MoonDisplay.Ctl u c t false uw rt) (hc : 0 ≤ c ∧ c ≤ 29) (ht : t < c ∨ 29 < t) :
    ∃ n uw', MoonDisplay.Ctl (MoonDisplay.pollN n u) 29 t false uw' rt := by
  by_cases h29 : c = 29
  · subst h29
    exact ⟨0, uw, hCtl⟩
  · obtain ⟨n, hn⟩ := climb_to u c 29 t rt uw hCtl (by omega) (by omega) (by omega)
      (by omega) (by omega) (by omega)
    exact ⟨n, true, hn⟩

theorem seg_to59 (u : MoonDisplay.MD) (c t rt : Int) (uw : Bool)
    (hCtl : MoonDisplay.Ctl u c t false uw rt) (hc : 30 ≤ c ∧ c ≤ 59) (ht : t < c) :
    ∃ n uw', MoonDisplay.Ctl (MoonDisplay.pollN n u) 59 t false uw' rt := by
  by_cases h59 : c = 59
  · subst h59
    exact ⟨0, uw, hCtl⟩
  · obtain ⟨n, hn⟩ := climb_to u c 59 t rt uw hCtl (by omega) (by omega) (by omega)
      (by omega) (by omega) (by omega)
    exact ⟨n, true, hn⟩

theorem seg_29_to_pre0 (u : MoonDisplay.MD) (t rt : Int) (uw : Bool)
    (hCtl : MoonDisplay.Ctl u 29 t false uw rt) (hne : t ≠ 29) :
    ∃ n, MoonDisplay.Ctl (MoonDisplay.pollN n u) 0 0 true true t := by
  have h1 := poll_reset30 u hCtl hne
  obtain ⟨n, hn⟩ := descend_to (MoonDisplay.poll u) 28 0 t true h1.1 (by omega) (by omega) (by omega)
  exact ⟨1 + n, by rw [pollN_add]; exact hn⟩

theorem seg_59_to_pre30 (u : MoonDisplay.MD) (t rt : Int) (uw : Bool)
    (hCtl : MoonDisplay.Ctl u 59 t false uw rt) (hne : t ≠ 59) :
    ∃ n, MoonDisplay.Ctl (MoonDisplay.pollN n u) 30 30 true true t := by
  have h1 := poll_reset60 u hCtl hne
  obtain ⟨n, hn⟩ := descend_to (MoonDisplay.poll u) 58 30 t true h1.1 (by omega) (by omega) (by omega)
  exact ⟨1 + n, by rw [pollN_add]; exact hn⟩

theorem seg_29_flip (u : MoonDisplay.MD) (t rt : Int) (uw : Bool)
    (hCtl : MoonDisplay.Ctl u 29 t false uw rt) (hne : t ≠ 29) :
    ∃ n, MoonDisplay.Ctl (MoonDisplay.pollN n u) 30 t false false t := by
  obtain ⟨n, hn⟩ := seg_29_to_pre0 u t rt uw hCtl hne
  exact ⟨n + 1, by rw [pollN_succ]; exact (poll_flip_at0 _ hn).1⟩

theorem seg_59_flip (u : MoonDisplay.MD) (t rt : Int) (uw : Bool)
    (hCtl : MoonDisplay.Ctl u 59 t false uw rt) (hne : t ≠ 59) :
    ∃ n, MoonDisplay.Ctl (MoonDisplay.pollN n u) 0 t false false t := by
  obtain ⟨n, hn⟩ := seg_59_to_pre30 u t rt uw hCtl hne
  exact ⟨n + 1, by rw [pollN_succ]; exact (poll_flip_at30 _ hn).1⟩

theorem stable_after (s0 : MoonDisplay.MD) (n : Nat) {t rt : Int}
    (hfix : MoonDisplay.Ctl (MoonDisplay.pollN (n + 1) s0) t t false false rt) :
    ∀ m, n < m → (MoonDisplay.pollN m s0).curPhase = t := by
  intro m hm
  obtain ⟨k, rfl⟩ : ∃ k, m = (n + 1) + k := ⟨m - (n + 1), by omega⟩
  rw [pollN_add, fix_iterate _ hfix k]
  exact hfix.1


theorem journey (u : MoonDisplay.MD) (s t rt : Int) (uw : Bool)
    (hCtl : MoonDisplay.Ctl u s t false uw rt)
    (hs : 0 ≤ s ∧ s ≤ 59) (ht : 0 ≤ t ∧ t ≤ 59) (hne : s ≠ t) :
    ∃ n, (t = 0 ∧ MoonDisplay.Ctl (MoonDisplay.pollN n u) 30 30 true true 0) ∨
         (t = 30 ∧ MoonDisplay.Ctl (MoonDisplay.pollN n u) 0 0 true true 30) ∨
         (∃ rt', MoonDisplay.Ctl (MoonDisplay.pollN n u) t t false true rt') := by
  by_cases ht0 : t = 0
  · subst ht0
    have hend : ∃ n, MoonDisplay.Ctl (MoonDisplay.pollN n u) 30 30 true true 0 := by
      rcases le_or_lt s 29 with hsle | hsgt
      · have s1 := seg_to29 u s 0 rt uw hCtl ⟨hs.1, hsle⟩ (Or.inl (by omega))
        have s2 := pollN_chain
          (fun w => ∃ uw', MoonDisplay.Ctl w 29 0 false uw' rt)
          (fun w => MoonDisplay.Ctl w 30 0 false false 0)
          s1 (fun w hw => by
            obtain ⟨uw', hw⟩ := hw
            exact seg_29_flip w 0 rt uw' hw (by omega))
        have s3 := pollN_chain
          (fun w => MoonDisplay.Ctl w 30 0 false false 0)
          (fun w => ∃ uw', MoonDisplay.Ctl w 59 0 false uw' 0)
          s2 (fun w hw => seg_to59 w 30 0 0 false hw ⟨by omega, by omega⟩ (by omega))
        exact pollN_chain
          (fun w => ∃ uw', MoonDisplay.Ctl w 59 0 false uw' 0)
          (fun w => MoonDisplay.Ctl w 30 30 true true 0)
          s3 (fun w hw => by
            obtain ⟨uw', hw⟩ := hw
            exact seg_59_to_pre30 w 0 0 uw' hw (by omega))
      · have s1 := seg_to59 u s 0 rt uw hCtl ⟨by omega, hs.2⟩ (by omega)
        exact pollN_chain
          (fun w => ∃ uw', MoonDisplay.Ctl w 59 0 false uw' rt)
          (fun w => MoonDisplay.Ctl w 30 30 true true 0)
          s1 (fun w hw => by
            obtain ⟨uw', hw⟩ := hw
            exact seg_59_to_pre30 w 0 rt uw' hw (by omega))
    obtain ⟨n, hn⟩ := hend
    exact ⟨n, Or.inl ⟨rfl, hn⟩⟩
  · by_cases ht30 : t = 30
    · subst ht30
      have hend : ∃ n, MoonDisplay.Ctl (MoonDisplay.pollN n u) 0 0 true true 30 := by
        rcases le_or_lt s 29 with hsle | hsgt
        · have s1 := seg_to29 u s 30 rt uw hCtl ⟨hs.1, hsle⟩ (Or.inr (by omega))
          exact pollN_chain
            (fun w => ∃ uw', MoonDisplay.Ctl w 29 30 false uw' rt)
            (fun w => MoonDisplay.Ctl w 0 0 true true 30)
            s1 (fun w hw => by
              obtain ⟨uw', hw⟩ := hw
              exact seg_29_to_pre0 w 30 rt uw' hw (by omega))
        · have s1 := seg_to59 u s 30 rt uw hCtl ⟨by omega, hs.2⟩ (by omega)
          have s2 := pollN_chain
            (fun w => ∃ uw', MoonDisplay.Ctl w 59 30 false uw' rt)
            (fun w => MoonDisplay.Ctl w 0 30 false false 30)
            s1 (fun w hw => by
              obtain ⟨uw', hw⟩ := hw
              exact seg_59_flip w 30 rt uw' hw (by omega))
          have s3 := pollN_chain
            (fun w => MoonDisplay.Ctl w 0 30 false false 30)
            (fun w => ∃ uw', MoonDisplay.Ctl w 29 30 false uw' 30)
            s2 (fun w hw => seg_to29 w 0 30 30 false hw ⟨by omega, by omega⟩ (Or.inr (by omega)))
          exact pollN_chain
            (fun w => ∃ uw', MoonDisplay.Ctl w 29 30 false uw' 30)
            (fun w => MoonDisplay.Ctl w 0 0 true true 30)
            s3 (fun w hw => by
              obtain ⟨uw', hw⟩ := hw
              exact seg_29_to_pre0 w 30 30 uw' hw (by omega))
      obtain ⟨n, hn⟩ := hend
      exact ⟨n, Or.inr (Or.inl ⟨rfl, hn⟩)⟩
    · have hend : ∃ n, ∃ rt', MoonDisplay.Ctl (MoonDisplay.pollN n u) t t false true rt' := by
        rcases le_or_lt t 29 with htle | htgt
        · rcases lt_or_gt_of_ne hne with hst | hts
          · obtain ⟨n, hn⟩ := climb_to u s t t rt uw hCtl hst hne hs.1 (by omega)
              (Or.inl htle) (Or.inr le_rfl)
            exact ⟨n, rt, hn⟩
          · have hclimb0 : ∀ w, MoonDisplay.Ctl w 0 t false false t →
                ∃ m, MoonDisplay.Ctl (MoonDisplay.pollN m w) t t false true t :=
              fun w hw => climb_to w 0 t t t false hw (by omega) (by omega) (by omega)
                (by omega) (Or.inl htle) (Or.inr le_rfl)
            rcases le_or_lt s 29 with hsle | hsgt
            · have s1 := seg_to29 u s t rt uw hCtl ⟨hs.1, hsle⟩ (Or.inl hts)
              have s2 := pollN_chain
                (fun w => ∃ uw', MoonDisplay.Ctl w 29 t false uw' rt)
                (fun w => MoonDisplay.Ctl w 30 t false false t)
                s1 (fun w hw => by
                  obtain ⟨uw', hw⟩ := hw
                  exact seg_29_flip w t rt uw' hw (by omega))
              have s3 := pollN_chain
                (fun w => MoonDisplay.Ctl w 30 t false false t)
                (fun w => ∃ uw', MoonDisplay.Ctl w 59 t false uw' t)
                s2 (fun w hw => seg_to59 w 30 t t false hw ⟨by omega, by omega⟩ (by omega))
              have s4 := pollN_chain
                (fun w => ∃ uw', MoonDisplay.Ctl w 59 t false uw' t)
                (fun w => MoonDisplay.Ctl w 0 t false false t)
                s3 (fun w hw => by
                  obtain ⟨uw', hw⟩ := hw
                  exact seg_59_flip w t t uw' hw (by omega))
              obtain ⟨n, hn⟩ := pollN_chain
                (fun w => MoonDisplay.Ctl w 0 t false false t)
                (fun w => MoonDisplay.Ctl w t t false true t)
                s4 hclimb0
              exact ⟨n, t, hn⟩
            · have s1 := seg_to59 u s t rt uw hCtl ⟨by omega, hs.2⟩ (by omega)
              have s2 := pollN_chain
                (fun w => ∃ uw', MoonDisplay.Ctl w 59 t false uw' rt)
                (fun w => MoonDisplay.Ctl w 0 t false false t)
                s1 (fun w hw => by
                  obtain ⟨uw', hw⟩ := hw
                  exact seg_59_flip w t rt uw' hw (by omega))
              obtain ⟨n, hn⟩ := pollN_chain
                (fun w => MoonDisplay.Ctl w 0 t false false t)
                (fun w => MoonDisplay.Ctl w t t false true t)
                s2 hclimb0
              exact ⟨n, t, hn⟩
        · have hclimb30 : ∀ w, MoonDisplay.Ctl w 30 t false false t →
              ∃ m, MoonDisplay.Ctl (MoonDisplay.pollN m w) t t false true t :=
            fun w hw => climb_to w 30 t t t false hw (by omega) (by omega) (by omega)
              (by omega) (Or.inr (by omega)) (Or.inr le_rfl)
          rcases lt_or_gt_of_ne hne with hst | hts
          · rcases le_or_lt s 29 with hsle | hsgt
            · have s1 := seg_to29 u s t rt uw hCtl ⟨hs.1, hsle⟩ (Or.inr (by omega))
              have s2 := pollN_chain
                (fun w => ∃ uw', MoonDisplay.Ctl w 29 t false uw' rt)
                (fun w => MoonDisplay.Ctl w 30 t false false t)
                s1 (fun w hw => by
                  obtain ⟨uw', hw⟩ := hw
                  exact seg_29_flip w t rt uw' hw (by omega))
              obtain ⟨n, hn⟩ := pollN_chain
                (fun w => MoonDisplay.Ctl w 30 t false false t)
                (fun w => MoonDisplay.Ctl w t t false true t)
                s2 hclimb30
              exact ⟨n, t, hn⟩
            · obtain ⟨n, hn⟩ := climb_to u s t t rt uw hCtl hst hne hs.1 (by omega)
                (Or.inr (by omega)) (Or.inr le_rfl)
              exact ⟨n, rt, hn⟩
          · have s1 := seg_to59 u s t rt uw hCtl ⟨by omega, hs.2⟩ hts
            have s2 := pollN_chain
              (fun w => ∃ uw', MoonDisplay.Ctl w 59 t false uw' rt)
              (fun w => MoonDisplay.Ctl w 0 t false false t)
              s1 (fun w hw => by
                obtain ⟨uw', hw⟩ := hw
                exact seg_59_flip w t rt uw' hw (by omega))
            have s3 := pollN_chain
              (fun w => MoonDisplay.Ctl w 0 t false false t)
              (fun w => ∃ uw', MoonDisplay.Ctl w 29 t false uw' t)
              s2 (fun w hw => seg_to29 w 0 t t false hw ⟨by omega, by omega⟩ (Or.inr (by omega)))
            have s4 := pollN_chain
              (fun w => ∃ uw', MoonDisplay.Ctl w 29 t false uw' t)
              (fun w => MoonDisplay.Ctl w 30 t false false t)
              s3 (fun w hw => by
                obtain ⟨uw', hw⟩ := hw
                exact seg_29_flip w t t uw' hw (by omega))
            obtain ⟨n, hn⟩ := pollN_chain
              (fun w => MoonDisplay.Ctl w 30 t false false t)
              (fun w => MoonDisplay.Ctl w t t false true t)
              s4 hclimb30
            exact ⟨n, t, hn⟩
      obtain ⟨n, rt', hn⟩ := hend
      exact ⟨n, Or.inr (Or.inr ⟨rt', hn⟩)⟩

/-- C7 counterexample: requesting the phase the display is already at is
accepted by `showPhase`, but the resulting state is a fixpoint of `run` that
always returns -1 — no `run()` call ever reports the requested phase as an
arrival, contradicting the claim for `p = currentPhase`. -/
theorem showPhase_current_phase_never_reported :
    (MoonDisplay.showPhase 0 (MoonDisplay.mkIdle 0)).1 = true ∧
    MoonDisplay.run ((MoonDisplay.showPhase 0 (MoonDisplay.mkIdle 0)).2) =
      .ok ((MoonDisplay.showPhase 0 (MoonDisplay.mkIdle 0)).2, -1) :=
  ⟨rfl, rfl⟩

/-- C7 amended: for every starting phase and every accepted target phase
DISTINCT from it, iterating `run()` (with enough ticks between calls for
each commanded motion to complete) terminates: some `run()` call returns the
target as the arrived phase, and `getPhase()` equals the target at every
later polling point. -/
theorem showPhase_distinct_target_arrives (s t : Int)
    (hs : 0 ≤ s ∧ s ≤ 59) (ht : 0 ≤ t ∧ t ≤ 59) (hne : s ≠ t) :
    (MoonDisplay.showPhase t (MoonDisplay.mkIdle s)).1 = true ∧
    ∃ n : Nat,
      MoonDisplay.pollRet
        (MoonDisplay.pollN n ((MoonDisplay.showPhase t (MoonDisplay.mkIdle s)).2)) = t ∧
      ∀ m : Nat, n < m →
        (MoonDisplay.pollN m ((MoonDisplay.showPhase t (MoonDisplay.mkIdle s)).2)).curPhase = t := by
  have htu : toU32 t = t.toNat := by
    unfold toU32
    have h1 : t.emod 4294967296 = t := Int.emod_eq_of_lt ht.1 (by omega)
    rw [h1]
  have hval : MoonDisplay.showPhase t (MoonDisplay.mkIdle s) =
      (true, { MoonDisplay.mkIdle s with tgtPhase := t }) := by
    unfold MoonDisplay.showPhase
    rw [if_neg (by simp [MoonDisplay.mkIdle]), if_neg (by rw [htu]; push_neg; omega)]
  have hCtl0 : MoonDisplay.Ctl ((MoonDisplay.showPhase t (MoonDisplay.mkIdle s)).2) s t false false 0 := by
    rw [hval]
    exact ⟨rfl, rfl, rfl, rfl, rfl, rfl, rfl⟩
  refine ⟨by rw [hval], ?_⟩
  obtain ⟨n, hcase⟩ := journey _ s t 0 false hCtl0 hs ht hne
  rcases hcase with ⟨h0, hn⟩ | ⟨h30, hn⟩ | ⟨rt', hn⟩
  · subst h0
    refine ⟨n, (poll_flip_at30 _ hn).2, ?_⟩
    have hfix : MoonDisplay.Ctl
        (MoonDisplay.pollN (n + 1) ((MoonDisplay.showPhase 0 (MoonDisplay.mkIdle s)).2))
        0 0 false false 0 := by
      rw [pollN_succ]
      exact (poll_flip_at30 _ hn).1
    exact stable_after _ n hfix
  · subst h30
    refine ⟨n, (poll_flip_at0 _ hn).2, ?_⟩
    have hfix : MoonDisplay.Ctl
        (MoonDisplay.pollN (n + 1) ((MoonDisplay.showPhase 30 (MoonDisplay.mkIdle s)).2))
        30 30 false false 30 := by
      rw [pollN_succ]
      exact (poll_flip_at0 _ hn).1
    exact stable_after _ n hfix
  · refine ⟨n, (poll_arrive _ hn).2, ?_⟩
    have hfix : MoonDisplay.Ctl
        (MoonDisplay.pollN (n + 1) ((MoonDisplay.showPhase t (MoonDisplay.mkIdle s)).2))
        t t false false rt' := by
      rw [pollN_succ]
      exact (poll_arrive _ hn).1
    exact stable_after _ n hfix

theorem showPhase_distinct_target_arrives_witness :
    (((0 : Int) ≤ 3 ∧ (3 : Int) ≤ 59) ∧ ((0 : Int) ≤ 7 ∧ (7 : Int) ≤ 59) ∧ (3 : Int) ≠ 7) ∧
    ((MoonDisplay.showPhase 7 (MoonDisplay.mkIdle 3)).1 = true ∧
     ∃ n : Nat,
       MoonDisplay.pollRet
         (MoonDisplay.pollN n ((MoonDisplay.showPhase 7 (MoonDisplay.mkIdle 3)).2)) = 7 ∧
       ∀ m : Nat, n < m →
         (MoonDisplay.pollN m ((MoonDisplay.showPhase 7 (MoonDisplay.mkIdle 3)).2)).curPhase = 7) :=
  ⟨⟨by decide, by decide, by decide⟩,
    showPhase_distinct_target_arrives 3 7 (by decide) (by decide) (by decide)⟩
